import Mathlib

/-!
Verification of the version-resolution launcher script (`bazelisk.py`).

The script is embedded shallowly: Python strings become `List Char`, the
environment, filesystem, clock and network become explicit record fields,
and every `raise` site becomes a constructor of `PyError`.  Each function
keeps its source name.
-/

namespace Bazelisk

/-- Python strings are modelled as lists of characters (code points). -/
abbrev Str := List Char

/-- Error values raised by the script.  The four named constructors embed the
four structured `raise Exception(...)` sites together with the data interpolated
into their messages; `attributeError` embeds the unstructured
`AttributeError` that Python raises when `re.match` returns `None` and the
script calls `.groups()` on it (in `determine_url`). -/
inductive PyError where
  | invalidVersionLabel (label : Str)
  | versionOffsetOutOfRange (offset : Nat) (total : Nat)
  | unsupportedArchitecture (machine : Str)
  | unsupportedOperatingSystem (os : Str)
  | attributeError
deriving DecidableEq

/-- Classifies whether an error is one of the four named error kinds of the
specification (everything except the unstructured `attributeError`). -/
def isNamedError : PyError → Bool
  | .invalidVersionLabel _ => true
  | .versionOffsetOutOfRange _ _ => true
  | .unsupportedArchitecture _ => true
  | .unsupportedOperatingSystem _ => true
  | .attributeError => false

/-- Embedding of Python `int(s)` applied to a non-empty string of ASCII
decimal digits (the only shape that reaches it here, since the regex group
being converted matches `\d+` or is defaulted to `'0'`). -/
def pyInt (ds : Str) : Nat :=
  ds.foldl (fun n c => n * 10 + (c.toNat - 48)) 0

/-- Ascii code points.  On ASCII strings the Unicode-aware parts of Python
modelled in this file (`\d`, `str.lower`, `str.strip`) coincide with the
ASCII functions used here, so theorems whose faithfulness depends on a
character class restrict their quantified strings to ASCII. -/
def isAsciiChar (c : Char) : Bool := c.toNat < 128

/-- Embedding of `LATEST_PATTERN.match(version)` followed by
`int(match.group('offset') or '0')` for a version with no trailing newline:
`re.match` anchors at the start and `$` at the end, so the match succeeds
exactly on `latest` (offset 0) and on `latest-` followed by one or more
digits (offset = the digits' value).  The digit class models `\d` as the
ASCII digits 0-9; Python's `\d` also matches non-ASCII Unicode decimal
digits (which `int()` converts), so theorems quantifying over labels
restrict themselves to ASCII strings, where this function is exact. -/
def latestPatternCore (core : Str) : Option Nat :=
  if core = "latest".data then some 0
  else if "latest-".data <+: core then
    let ds := core.drop 7
    if ds ≠ [] ∧ ds.all Char.isDigit then some (pyInt ds) else none
  else none

/-- Embedding of `LATEST_PATTERN.match(version)` followed by
`int(match.group('offset') or '0')`, where
`LATEST_PATTERN = re.compile(r'latest(-(?P<offset>\d+))?$')` (bazelisk.py
line 37).  Python's `$` matches at the end of the string or just before a
newline that ends the string, so the pattern also accepts its words with one
trailing `'\n'` appended; since no word of the core language ends in a
newline, stripping one final newline first is exact. -/
def latestPatternMatch (version : Str) : Option Nat :=
  if version.getLast? = some '\n' then latestPatternCore version.dropLast
  else latestPatternCore version

/-- Embedding of `resolve_latest_version(version_history, offset)`
(bazelisk.py lines 113-120): index the descending history at `offset`, or
raise reporting the requested offset and the number of known releases. -/
def resolve_latest_version (version_history : List Str) (offset : Nat) :
    Except PyError Str :=
  if h : version_history.length ≤ offset then
    .error (.versionOffsetOutOfRange offset version_history.length)
  else
    .ok (version_history.get ⟨offset, Nat.lt_of_not_le h⟩)

deriving instance DecidableEq for Except

/-- Result of `resolve_version_label_to_number` together with a flag recording
whether `get_version_history(bazelisk_directory)` was invoked — the only
operation in the function that consults the cache file or the network. -/
structure ResolveOutcome where
  result : Except PyError Str
  historyFetched : Bool
deriving DecidableEq

/-- Embedding of `resolve_version_label_to_number(bazelisk_directory, version)`
(bazelisk.py lines 74-87).  The release history that
`get_version_history(bazelisk_directory)` would return is passed in as
`history`; the `historyFetched` flag records whether that call is reached.
`'latest' in version` is substring containment. -/
def resolve_version_label_to_number (history : List Str) (version : Str) :
    ResolveOutcome :=
  if "latest".data <:+: version then
    match latestPatternMatch version with
    | none => ⟨.error (.invalidVersionLabel version), false⟩
    | some offset => ⟨resolve_latest_version history offset, true⟩
  else ⟨.ok version, false⟩

theorem isDigit_ne_newline {c : Char} (h : c.isDigit = true) : ¬ c = '\n' :=
  fun hc => absurd (hc ▸ h) (by decide)

theorem latestPatternCore_latest_dash (ds : Str) (hne : ds ≠ [])
    (hdig : ds.all Char.isDigit = true) :
    latestPatternCore ("latest-".data ++ ds) = some (pyInt ds) := by
  unfold latestPatternCore
  rw [if_neg, if_pos (List.prefix_append _ _)]
  · rw [show (7 : Nat) = ("latest-".data).length from rfl, List.drop_left,
      if_pos ⟨hne, hdig⟩]
  · intro h
    have := congrArg List.length h
    simp [List.length_append] at this

theorem latestPatternMatch_latest_dash (ds : Str) (hne : ds ≠ [])
    (hdig : ds.all Char.isDigit = true) :
    latestPatternMatch ("latest-".data ++ ds) = some (pyInt ds) := by
  have hnl : ¬ ("latest-".data ++ ds).getLast? = some '\n' := by
    rw [List.getLast?_append_of_ne_nil _ hne,
      List.getLast?_eq_getLast_of_ne_nil hne]
    intro hsome
    injection hsome with hc
    exact isDigit_ne_newline
      (List.all_eq_true.mp hdig _ (List.getLast_mem hne)) hc
  unfold latestPatternMatch
  rw [if_neg hnl]
  exact latestPatternCore_latest_dash ds hne hdig

theorem resolve_matched (history : List Str) (version : Str) (offset : Nat)
    (hin : "latest".data <:+: version)
    (hm : latestPatternMatch version = some offset) :
    resolve_version_label_to_number history version =
      ⟨resolve_latest_version history offset, true⟩ := by
  unfold resolve_version_label_to_number
  rw [if_pos hin, hm]

theorem resolve_latest_version_lt (history : List Str) (offset : Nat)
    (h : offset < history.length) :
    resolve_latest_version history offset = .ok (history.get ⟨offset, h⟩) := by
  unfold resolve_latest_version
  rw [dif_neg (Nat.not_le.mpr h)]

theorem resolve_latest_version_ge (history : List Str) (offset : Nat)
    (h : history.length ≤ offset) :
    resolve_latest_version history offset =
      .error (.versionOffsetOutOfRange offset history.length) := by
  unfold resolve_latest_version
  rw [dif_pos h]

/-- C1: for the label `latest` (offset defaulting to 0) and for `latest-N`
(with N a non-negative decimal numeral `ds`), resolution against a release
history returns `history[N]` when `N < len(history)` and fails with a
`VersionOffsetOutOfRange` error reporting both the requested offset `N` and
`len(history)` when `N ≥ len(history)`.  In both cases the history is
fetched. -/
theorem c1_latest_and_offset_resolution (history : List Str) (ds : Str)
    (hne : ds ≠ []) (hdig : ds.all Char.isDigit = true) :
    (∀ h : pyInt ds < history.length,
      resolve_version_label_to_number history ("latest-".data ++ ds) =
        ⟨.ok (history.get ⟨pyInt ds, h⟩), true⟩)
    ∧ (history.length ≤ pyInt ds →
      resolve_version_label_to_number history ("latest-".data ++ ds) =
        ⟨.error (.versionOffsetOutOfRange (pyInt ds) history.length), true⟩)
    ∧ (∀ h0 : 0 < history.length,
      resolve_version_label_to_number history "latest".data =
        ⟨.ok (history.get ⟨0, h0⟩), true⟩)
    ∧ (history.length = 0 →
      resolve_version_label_to_number history "latest".data =
        ⟨.error (.versionOffsetOutOfRange 0 history.length), true⟩) := by
  have hin : "latest".data <:+: ("latest-".data ++ ds) :=
    ⟨[], '-' :: ds, by simp⟩
  have hin0 : "latest".data <:+: "latest".data := ⟨[], [], by simp⟩
  have hm := latestPatternMatch_latest_dash ds hne hdig
  have hm0 : latestPatternMatch "latest".data = some 0 := rfl
  refine ⟨?_, ?_, ?_, ?_⟩
  · intro h
    rw [resolve_matched _ _ _ hin hm, resolve_latest_version_lt _ _ h]
  · intro h
    rw [resolve_matched _ _ _ hin hm, resolve_latest_version_ge _ _ h]
  · intro h0
    rw [resolve_matched _ _ _ hin0 hm0, resolve_latest_version_lt _ _ h0]
  · intro h
    rw [resolve_matched _ _ _ hin0 hm0,
      resolve_latest_version_ge _ _ (Nat.le_of_eq h)]

/-- Witness for C1 at a concrete history of two releases: `latest-1` resolves
to the second-newest release, `latest-5` is out of range and reports offset 5
and total 2. -/
theorem c1_witness :
    ("1".data ≠ [] ∧ "1".data.all Char.isDigit = true ∧
      pyInt "1".data < (["0.20.0".data, "0.19.1".data] : List Str).length)
    ∧ resolve_version_label_to_number ["0.20.0".data, "0.19.1".data]
        ("latest-".data ++ "1".data) = ⟨.ok "0.19.1".data, true⟩
    ∧ resolve_version_label_to_number ["0.20.0".data, "0.19.1".data]
        ("latest-".data ++ "5".data) =
        ⟨.error (.versionOffsetOutOfRange 5 2), true⟩ := by
  refine ⟨⟨by decide, by decide, by decide⟩, ?_, ?_⟩
  · exact (c1_latest_and_offset_resolution _ "1".data (by decide) (by decide)).1
      (by decide)
  · exact (c1_latest_and_offset_resolution _ "5".data (by decide) (by decide)).2.1
      (by decide)

/-- C2: every version label that does not contain the substring `latest` is
returned unchanged — with no further validation of its shape — and the
release history (cache file or network) is never consulted. -/
theorem c2_literal_labels_pass_through (history : List Str) (version : Str)
    (h : ¬ "latest".data <:+: version) :
    resolve_version_label_to_number history version = ⟨.ok version, false⟩ := by
  unfold resolve_version_label_to_number
  rw [if_neg h]

/-- Witness for C2 at the (malformed, yet accepted) literal label `4.5.!x`. -/
theorem c2_witness :
    (¬ "latest".data <:+: "4.5.!x".data)
    ∧ resolve_version_label_to_number ["1.0".data] "4.5.!x".data =
        ⟨.ok "4.5.!x".data, false⟩ :=
  ⟨by decide, c2_literal_labels_pass_through _ _ (by decide)⟩

/-- C3: every version label made of ASCII characters that contains the
substring `latest` but is not accepted by `LATEST_PATTERN.match` fails with
an `InvalidVersionLabel` error, and the release history is not fetched.  On
ASCII labels `latestPatternMatch` is exactly Python's match — including the
trailing-newline tolerance of `$`, so e.g. a label of `latest` followed by a
newline is accepted and resolved rather than rejected; Python additionally
accepts non-ASCII Unicode decimal digits in the offset group, and the ASCII
hypothesis keeps such labels outside this theorem's scope. -/
theorem c3_invalid_latest_labels (history : List Str) (version : Str)
    (hascii : version.all isAsciiChar = true)
    (hin : "latest".data <:+: version)
    (hno : latestPatternMatch version = none) :
    resolve_version_label_to_number history version =
      ⟨.error (.invalidVersionLabel version), false⟩ := by
  unfold resolve_version_label_to_number
  rw [if_pos hin, hno]

/-- Witness for C3 at the label `latest2` from the specification's example. -/
theorem c3_witness :
    ("latest2".data.all isAsciiChar = true
      ∧ "latest".data <:+: "latest2".data
      ∧ latestPatternMatch "latest2".data = none)
    ∧ resolve_version_label_to_number ["1.0".data] "latest2".data =
        ⟨.error (.invalidVersionLabel "latest2".data), false⟩ :=
  ⟨⟨by decide, by decide, by decide⟩,
    c3_invalid_latest_labels _ _ (by decide) (by decide) (by decide)⟩

/-- Evaluation check: Python's `$` matches just before a trailing newline,
so the label `latest` followed by `'\n'` is accepted by the pattern and
resolves to the newest release instead of failing. -/
theorem latest_trailing_newline_example :
    latestPatternMatch "latest\n".data = some 0
    ∧ resolve_version_label_to_number ["1.0".data] "latest\n".data =
        ⟨.ok "1.0".data, true⟩ := by decide

/-- Strict lexicographic comparison of Python strings (`str.__lt__`),
character by character on code points, a proper prefix comparing smaller. -/
def charListLT : Str → Str → Bool
  | [], [] => false
  | [], _ :: _ => true
  | _ :: _, [] => false
  | a :: as, b :: bs =>
    if a.toNat < b.toNat then true
    else if b.toNat < a.toNat then false
    else charListLT as bs

theorem charListLT_irrefl : ∀ a, charListLT a a = false
  | [] => rfl
  | _ :: as => by
    unfold charListLT
    rw [if_neg (by omega), if_neg (by omega)]
    exact charListLT_irrefl as

theorem charListLT_asymm : ∀ a b, charListLT a b = true → charListLT b a = false
  | [], [], h => by simp [charListLT] at h
  | [], _ :: _, _ => rfl
  | _ :: _, [], h => by simp [charListLT] at h
  | a :: as, b :: bs, h => by
    unfold charListLT at h ⊢
    by_cases h1 : a.toNat < b.toNat
    · rw [if_neg (by omega), if_pos h1]
    · by_cases h2 : b.toNat < a.toNat
      · rw [if_neg h1, if_pos h2] at h
        simp at h
      · rw [if_neg h1, if_neg h2] at h
        rw [if_neg h2, if_neg h1]
        exact charListLT_asymm as bs h

theorem charListLT_linear : ∀ a b c, charListLT a c = true →
    charListLT a b = true ∨ charListLT b c = true
  | [], [], _ :: _, _ => Or.inr rfl
  | [], _ :: _, _ :: _, _ => Or.inl rfl
  | [], _, [], h => by simp [charListLT] at h
  | _ :: _, _, [], h => by simp [charListLT] at h
  | _ :: _, [], _ :: _, _ => Or.inr rfl
  | a :: as, b :: bs, c :: cs, h => by
    unfold charListLT at h ⊢
    by_cases hab : a.toNat < b.toNat
    · exact Or.inl (by rw [if_pos hab])
    by_cases hba : b.toNat < a.toNat
    · by_cases hac : a.toNat < c.toNat
      · exact Or.inr (by rw [if_pos (by omega)])
      · by_cases hca : c.toNat < a.toNat
        · rw [if_neg hac, if_pos hca] at h
          simp at h
        · exact Or.inr (by rw [if_pos (by omega)])
    · by_cases hac : a.toNat < c.toNat
      · exact Or.inr (by rw [if_pos (by omega)])
      by_cases hca : c.toNat < a.toNat
      · rw [if_neg hac, if_pos hca] at h
        simp at h
      · rw [if_neg hac, if_neg hca] at h
        rcases charListLT_linear as bs cs h with h1 | h1
        · exact Or.inl (by rw [if_neg hab, if_neg hba]; exact h1)
        · exact Or.inr (by rw [if_neg (by omega), if_neg (by omega)]; exact h1)

/-- Tok models one component of a parsed `LooseVersion`: an `int` component
(`Sum.inl`) or a string component (`Sum.inr`). -/
abbrev Tok := Nat ⊕ Str

/-- Strict comparison of two LooseVersion components, as Python orders list
elements: numbers by value and strings lexicographically.  Python 3 RAISES
`TypeError` when `<` compares an `int` with a `str` — inside `sorted()` this
aborts the whole refresh — so the value returned here for a mixed pair
(every number below every string) is a totalisation, not Python behaviour.
The theorem about the sort therefore restricts itself, through
`verComparable`, to release lists on which no int-vs-str comparison can
arise; on that domain this order agrees with Python exactly. -/
def tokLT : Tok → Tok → Bool
  | .inl m, .inl n => decide (m < n)
  | .inl _, .inr _ => true
  | .inr _, .inl _ => false
  | .inr s, .inr t => charListLT s t

theorem tokLT_irrefl : ∀ a, tokLT a a = false
  | .inl m => by simp [tokLT]
  | .inr s => charListLT_irrefl s

theorem tokLT_asymm : ∀ a b, tokLT a b = true → tokLT b a = false
  | .inl _, .inl _, h => by simp [tokLT] at h ⊢; omega
  | .inl _, .inr _, _ => rfl
  | .inr _, .inl _, h => by simp [tokLT] at h
  | .inr s, .inr t, h => charListLT_asymm s t h

theorem tokLT_linear : ∀ a b c, tokLT a c = true →
    tokLT a b = true ∨ tokLT b c = true
  | .inl _, .inl _, .inl _, h => by simp [tokLT] at h ⊢; omega
  | .inl _, .inl _, .inr _, _ => Or.inr rfl
  | .inl _, .inr _, .inl _, _ => Or.inl rfl
  | .inl _, .inr _, .inr _, _ => Or.inl rfl
  | .inr _, .inl _, .inl _, h => by simp [tokLT] at h
  | .inr _, .inr _, .inl _, h => by simp [tokLT] at h
  | .inr _, .inl _, .inr _, _ => Or.inr rfl
  | .inr s, .inr u, .inr t, h => charListLT_linear s u t h

/-- Strict comparison of two parsed component lists, as Python compares lists
lexicographically (scan to the first position where the elements differ). -/
def verLT : List Tok → List Tok → Bool
  | [], [] => false
  | [], _ :: _ => true
  | _ :: _, [] => false
  | a :: as, b :: bs =>
    if tokLT a b then true
    else if tokLT b a then false
    else verLT as bs

theorem verLT_irrefl : ∀ a, verLT a a = false
  | [] => rfl
  | a :: as => by
    unfold verLT
    rw [if_neg (by simp [tokLT_irrefl]), if_neg (by simp [tokLT_irrefl])]
    exact verLT_irrefl as

theorem verLT_asymm : ∀ a b, verLT a b = true → verLT b a = false
  | [], [], h => by simp [verLT] at h
  | [], _ :: _, _ => rfl
  | _ :: _, [], h => by simp [verLT] at h
  | a :: as, b :: bs, h => by
    unfold verLT at h ⊢
    by_cases hab : tokLT a b = true
    · have hba := tokLT_asymm a b hab
      rw [if_neg (by simp [hba]), if_pos hab]
    · by_cases hba : tokLT b a = true
      · rw [if_neg hab, if_pos hba] at h
        simp at h
      · rw [if_neg hab, if_neg hba] at h
        rw [if_neg hba, if_neg hab]
        exact verLT_asymm as bs h

theorem verLT_linear : ∀ a b c, verLT a c = true →
    verLT a b = true ∨ verLT b c = true
  | [], [], _ :: _, _ => Or.inr rfl
  | [], _ :: _, _ :: _, _ => Or.inl rfl
  | [], _, [], h => by simp [verLT] at h
  | _ :: _, _, [], h => by simp [verLT] at h
  | _ :: _, [], _ :: _, _ => Or.inr rfl
  | a :: as, b :: bs, c :: cs, h => by
    unfold verLT at h ⊢
    by_cases hab : tokLT a b = true
    · exact Or.inl (by rw [if_pos hab])
    by_cases hba : tokLT b a = true
    · rcases tokLT_linear b c a hba with hbc | hca
      · exact Or.inr (by rw [if_pos hbc])
      · have hac := tokLT_asymm c a hca
        rw [if_neg (by simp [hac]), if_pos hca] at h
        simp at h
    · by_cases hac : tokLT a c = true
      · rcases tokLT_linear a b c hac with h1 | h1
        · exact absurd h1 hab
        · exact Or.inr (by rw [if_pos h1])
      by_cases hca : tokLT c a = true
      · rw [if_neg hac, if_pos hca] at h
        simp at h
      · rw [if_neg hac, if_neg hca] at h
        by_cases hbc : tokLT b c = true
        · exact Or.inr (by rw [if_pos hbc])
        by_cases hcb : tokLT c b = true
        · rcases tokLT_linear c a b hcb with h1 | h1
          · exact absurd h1 hca
          · exact absurd h1 hab
        · rcases verLT_linear as bs cs h with h1 | h1
          · exact Or.inl (by rw [if_neg hab, if_neg hba]; exact h1)
          · exact Or.inr (by rw [if_neg hbc, if_neg hcb]; exact h1)

/-- Ascii lowercase letter, the `[a-z]` class of
`distutils.version.LooseVersion.component_re`. -/
def isLowerAZ (c : Char) : Bool := 'a' ≤ c && c ≤ 'z'

/-- Characters that are kept as separator text by `component_re.split`:
anything that is not a digit, not a lowercase letter and not a dot. -/
def isOtherTok (c : Char) : Bool := !(c.isDigit || isLowerAZ c || c = '.')

/-- Tokenizer of `distutils.version.LooseVersion.parse`: split the version
string with `component_re = re.compile(r'(\d+ | [a-z]+ | \.)', re.VERBOSE)`,
drop the `'.'` matches and empty pieces, convert digit runs with `int`, and
keep maximal runs of all other characters (the text between matches, which
`re.split` also returns) as string components.  The digit class models the
str-pattern `\d+` as ASCII 0-9; Python's `\d` also matches non-ASCII Unicode
decimal digits, which `int()` then converts, so the theorem about the sort
restricts itself to ASCII tag names, where this tokenizer is exact.  The
`fuel` argument only bounds the recursion for Lean's termination checker;
every step consumes at least one character, so `s.length` fuel always
suffices. -/
def looseTokenizeAux : Nat → Str → List Tok
  | 0, _ => []
  | _, [] => []
  | fuel + 1, c :: rest =>
    if c.isDigit then
      .inl (pyInt (c :: rest.takeWhile Char.isDigit)) ::
        looseTokenizeAux fuel (rest.dropWhile Char.isDigit)
    else if isLowerAZ c then
      .inr (c :: rest.takeWhile isLowerAZ) ::
        looseTokenizeAux fuel (rest.dropWhile isLowerAZ)
    else if c = '.' then
      looseTokenizeAux fuel rest
    else
      .inr (c :: rest.takeWhile isOtherTok) ::
        looseTokenizeAux fuel (rest.dropWhile isOtherTok)

/-- Parsed component list of `LooseVersion(s)` (its `version` attribute). -/
def looseTokenize (s : Str) : List Tok := looseTokenizeAux s.length s

/-- Embedding of a `distutils.version.LooseVersion` object: the original
string (`vstring`, which `str()` returns unchanged) and the parsed component
list used for comparisons. -/
structure LooseVersion where
  vstring : Str
  version : List Tok
deriving DecidableEq

/-- Embedding of the `LooseVersion(...)` constructor. -/
def looseParse (s : Str) : LooseVersion := ⟨s, looseTokenize s⟩

/-- Order in which `sorted(..., reverse=True)` arranges two LooseVersions:
`vge a b` holds when `a` is not version-smaller than `b`.  Python's sort is
stable and so is `List.insertionSort`, so sorting with this relation yields
exactly the list the script computes. -/
def vge (a b : LooseVersion) : Prop := verLT a.version b.version = false

instance : DecidableRel vge := fun a b =>
  inferInstanceAs (Decidable (verLT a.version b.version = false))

instance : IsTotal LooseVersion vge where
  total a b := by
    by_cases h : verLT a.version b.version = true
    · exact Or.inr (verLT_asymm _ _ h)
    · exact Or.inl (by simpa [vge] using h)

instance : IsTrans LooseVersion vge where
  trans a b c hab hbc := by
    unfold vge at hab hbc ⊢
    by_cases h : verLT a.version c.version = true
    · rcases verLT_linear a.version b.version c.version h with h1 | h1
      · rw [hab] at h1
        simp at h1
      · rw [hbc] at h1
        simp at h1
    · simpa using h

/-- Type-comparability of two parsed component lists.  Python compares lists
by scanning for the first unequal pair of components (`==` is safe across
types) and ordering that pair with `<`; a strict prefix compares by length,
which never raises.  The scan therefore raises `TypeError` — aborting
`sorted()` and the whole refresh — exactly when the first unequal components
are an `int` and a `str`, and succeeds exactly when this function returns
true. -/
def verComparable : List Tok → List Tok → Bool
  | [], _ => true
  | _, [] => true
  | a :: as, b :: bs =>
    if a = b then verComparable as bs
    else
      match a, b with
      | .inl _, .inl _ => true
      | .inr _, .inr _ => true
      | _, _ => false

/-- One entry of the decoded JSON release list: its `tag_name` and
`prerelease` fields, the only ones the script reads. -/
structure Release where
  tag_name : Str
  prerelease : Bool
deriving DecidableEq

/-- Embedding of `get_version_history_from_github()` (bazelisk.py lines
104-110), taking the decoded JSON release list as input: keep the entries
whose `prerelease` field is false, parse each `tag_name` as a `LooseVersion`,
sort in descending version order (`sorted(..., reverse=True)`, a stable sort,
modelled by the stable `List.insertionSort` under `vge`), and return the
`str()` of each element, which is its original tag string. -/
def get_version_history_from_github (releases : List Release) : List Str :=
  (List.insertionSort vge
      ((releases.filter (fun r => !r.prerelease)).map
        (fun r => looseParse r.tag_name))).map
    (fun v => v.vstring)

/-- ONE_HOUR = 1 * 60 * 60 (bazelisk.py line 35).  Times are rationals
(seconds), matching the real-valued `time.time()` clock. -/
def ONE_HOUR : ℚ := 1 * 60 * 60

/-- State read and written by `get_version_history(bazelisk_directory)`: the
cache file `<bazelisk_directory>/latest_bazel` (whether it exists, its mtime,
and the JSON array of strings its stripped contents parse to), the current
clock, and the remote release list that `urlopen(BAZEL_RELEASES_URL)` would
deliver. -/
structure CacheWorld where
  cacheFileExists : Bool
  cacheMtime : ℚ
  cacheParsed : List Str
  now : ℚ
  remote : List Release

/-- Observable outcome of `get_version_history`: the returned history,
whether the network was consulted, and what (if anything) was written back to
the cache file before returning. -/
structure HistoryOutcome where
  history : List Str
  networkCalled : Bool
  cacheWritten : Option (List Str)
deriving DecidableEq

/-- Embedding of `get_version_history(bazelisk_directory)` (bazelisk.py lines
90-101): if the cache file exists and
`abs(time.time() - os.path.getmtime(latest_cache)) < ONE_HOUR`, return its
parsed contents verbatim with no network call; otherwise fetch from the
network, overwrite the cache file with the JSON dump of the fresh history,
and return that history. -/
def get_version_history (w : CacheWorld) : HistoryOutcome :=
  if w.cacheFileExists = true ∧ |w.now - w.cacheMtime| < ONE_HOUR then
    ⟨w.cacheParsed, false, none⟩
  else
    let history := get_version_history_from_github w.remote
    ⟨history, true, some history⟩

/-- C4: the cache file is used verbatim (its parsed contents returned, with
no network call and nothing written) exactly when it exists and the absolute
clock difference `|now - mtime|` is strictly below 3600 seconds; when the
file is absent or the difference is at least 3600, a refresh is triggered. -/
theorem c4_cache_freshness (w : CacheWorld) :
    ((w.cacheFileExists = true ∧ |w.now - w.cacheMtime| < ONE_HOUR) →
      get_version_history w = ⟨w.cacheParsed, false, none⟩)
    ∧ ((w.cacheFileExists = false ∨ ONE_HOUR ≤ |w.now - w.cacheMtime|) →
      (get_version_history w).networkCalled = true
      ∧ (get_version_history w).history =
          get_version_history_from_github w.remote)
    ∧ ((get_version_history w).networkCalled = false ↔
      w.cacheFileExists = true ∧ |w.now - w.cacheMtime| < ONE_HOUR) := by
  unfold get_version_history
  by_cases h : w.cacheFileExists = true ∧ |w.now - w.cacheMtime| < ONE_HOUR
  · rw [if_pos h]
    refine ⟨fun _ => rfl, ?_, Iff.intro (fun _ => h) (fun _ => rfl)⟩
    rintro (h1 | h1)
    · rw [h1] at h
      simp at h
    · exact absurd h.2 (not_lt.mpr h1)
  · rw [if_neg h]
    exact ⟨fun hh => absurd hh h, fun _ => ⟨rfl, rfl⟩,
      Iff.intro (fun hh => by simp at hh) (fun hc => absurd hc h)⟩

/-- Cache world whose file is 3599.5 seconds old at read time. -/
def cacheWorldFresh : CacheWorld :=
  ⟨true, 1000, ["1.0".data], 1000 + 7199 / 2, []⟩

/-- Cache world whose file is exactly 3600 seconds old at read time. -/
def cacheWorldStale : CacheWorld :=
  ⟨true, 1000, ["1.0".data], 1000 + 3600,
    [⟨"0.19.1".data, false⟩, ⟨"0.20.0rc1".data, true⟩, ⟨"0.20.0".data, false⟩]⟩

/-- Witness for C4: a file 3599.5 seconds old is used verbatim, a file
exactly 3600 seconds old triggers a refresh. -/
theorem c4_witness :
    ((cacheWorldFresh.cacheFileExists = true ∧
        |cacheWorldFresh.now - cacheWorldFresh.cacheMtime| < ONE_HOUR)
      ∧ get_version_history cacheWorldFresh = ⟨["1.0".data], false, none⟩)
    ∧ ((cacheWorldStale.cacheFileExists = false ∨
        ONE_HOUR ≤ |cacheWorldStale.now - cacheWorldStale.cacheMtime|)
      ∧ (get_version_history cacheWorldStale).networkCalled = true) := by
  have hf : cacheWorldFresh.cacheFileExists = true ∧
      |cacheWorldFresh.now - cacheWorldFresh.cacheMtime| < ONE_HOUR := by
    refine ⟨rfl, ?_⟩
    show |(1000 + 7199 / 2 : ℚ) - 1000| < ONE_HOUR
    rw [abs_of_nonneg (by norm_num)]
    norm_num [ONE_HOUR]
  have hs : cacheWorldStale.cacheFileExists = false ∨
      ONE_HOUR ≤ |cacheWorldStale.now - cacheWorldStale.cacheMtime| := by
    refine Or.inr ?_
    show ONE_HOUR ≤ |(1000 + 3600 : ℚ) - 1000|
    rw [abs_of_nonneg (by norm_num)]
    norm_num [ONE_HOUR]
  exact ⟨⟨hf, (c4_cache_freshness cacheWorldFresh).1 hf⟩,
    ⟨hs, ((c4_cache_freshness cacheWorldStale).2.1 hs).1⟩⟩

theorem github_history_pairwise (releases : List Release) :
    (get_version_history_from_github releases).Pairwise
      (fun a b => verLT (looseTokenize a) (looseTokenize b) = false) := by
  unfold get_version_history_from_github
  rw [List.pairwise_map]
  have hs := List.sorted_insertionSort vge
    ((releases.filter (fun r => !r.prerelease)).map
      (fun r => looseParse r.tag_name))
  refine List.Pairwise.imp_of_mem ?_ hs
  intro a b ha hb hab
  have ha' : looseTokenize a.vstring = a.version := by
    rcases List.mem_map.mp ((List.mem_insertionSort vge).mp ha) with ⟨r, _, rfl⟩
    rfl
  have hb' : looseTokenize b.vstring = b.version := by
    rcases List.mem_map.mp ((List.mem_insertionSort vge).mp hb) with ⟨r, _, rfl⟩
    rfl
  rw [ha', hb']
  exact hab

theorem github_history_head_max (releases : List Release) :
    ∀ i, ∀ hi : i < (get_version_history_from_github releases).length,
      verLT
        (looseTokenize ((get_version_history_from_github releases).get
          ⟨0, Nat.lt_of_le_of_lt (Nat.zero_le i) hi⟩))
        (looseTokenize ((get_version_history_from_github releases).get
          ⟨i, hi⟩)) = false := by
  intro i hi
  rcases Nat.eq_zero_or_pos i with h0 | h0
  · subst h0
    exact verLT_irrefl _
  · exact List.pairwise_iff_get.mp (github_history_pairwise releases)
      ⟨0, Nat.lt_of_le_of_lt (Nat.zero_le i) hi⟩ ⟨i, hi⟩ h0

/-- C5: on a cache miss, `get_version_history` consults the network, returns
exactly the fetch result (pre-releases filtered out, tag names parsed as
versions, sorted descending, stringified), overwrites the cache file with
that same list before returning, and the returned history is descending in
version order — in particular the entry at offset 0 is as new as every other
entry.  The theorem restricts the remote release list to the domain on which
the model is exactly Python: tag names of ASCII characters (Python's str
pattern `\d+` also matches Unicode decimal digits, which would tokenize
differently) whose kept parsed versions are pairwise type-comparable — for
a remote with an int-vs-str component pair, such as tags `3` and `rc`,
Python's `sorted()` raises `TypeError`, the run aborts, and nothing is
returned or written, a crash path the totalised model cannot exhibit and
which these hypotheses exclude. -/
theorem c5_refresh_descending (w : CacheWorld)
    (hmiss : ¬(w.cacheFileExists = true ∧ |w.now - w.cacheMtime| < ONE_HOUR))
    (hascii : ∀ r ∈ w.remote, r.tag_name.all isAsciiChar = true)
    (hcomp : ∀ a ∈ (w.remote.filter (fun r => !r.prerelease)).map
        (fun r => looseParse r.tag_name),
      ∀ b ∈ (w.remote.filter (fun r => !r.prerelease)).map
        (fun r => looseParse r.tag_name),
      verComparable a.version b.version = true) :
    (get_version_history w).networkCalled = true
    ∧ (get_version_history w).history =
        get_version_history_from_github w.remote
    ∧ (get_version_history w).cacheWritten =
        some (get_version_history w).history
    ∧ (get_version_history w).history.Pairwise
        (fun a b => verLT (looseTokenize a) (looseTokenize b) = false)
    ∧ ∀ i, ∀ hi : i < (get_version_history w).history.length,
        verLT
          (looseTokenize ((get_version_history w).history.get
            ⟨0, Nat.lt_of_le_of_lt (Nat.zero_le i) hi⟩))
          (looseTokenize ((get_version_history w).history.get ⟨i, hi⟩)) =
          false := by
  have hout : get_version_history w =
      ⟨get_version_history_from_github w.remote, true,
        some (get_version_history_from_github w.remote)⟩ := by
    unfold get_version_history
    rw [if_neg hmiss]
  rw [hout]
  exact ⟨rfl, rfl, rfl, github_history_pairwise w.remote,
    github_history_head_max w.remote⟩

/-- Witness for C5 at the concrete stale world (ASCII tags, all-numeric kept
versions): the refresh is triggered and returns the filtered, descending,
stringified release list. -/
theorem c5_witness :
    (¬(cacheWorldStale.cacheFileExists = true ∧
        |cacheWorldStale.now - cacheWorldStale.cacheMtime| < ONE_HOUR))
    ∧ (∀ r ∈ cacheWorldStale.remote, r.tag_name.all isAsciiChar = true)
    ∧ (get_version_history cacheWorldStale).networkCalled = true
    ∧ (get_version_history cacheWorldStale).history =
        get_version_history_from_github cacheWorldStale.remote
    ∧ (get_version_history cacheWorldStale).cacheWritten =
        some (get_version_history cacheWorldStale).history := by
  have h : ¬(cacheWorldStale.cacheFileExists = true ∧
      |cacheWorldStale.now - cacheWorldStale.cacheMtime| < ONE_HOUR) := by
    rintro ⟨-, habs⟩
    rw [show |cacheWorldStale.now - cacheWorldStale.cacheMtime| =
        |(1000 + 3600 : ℚ) - 1000| from rfl,
      abs_of_nonneg (by norm_num)] at habs
    norm_num [ONE_HOUR] at habs
  have ha : ∀ r ∈ cacheWorldStale.remote, r.tag_name.all isAsciiChar = true :=
    by decide
  have hc : ∀ a ∈ (cacheWorldStale.remote.filter (fun r => !r.prerelease)).map
      (fun r => looseParse r.tag_name),
      ∀ b ∈ (cacheWorldStale.remote.filter (fun r => !r.prerelease)).map
        (fun r => looseParse r.tag_name),
      verComparable a.version b.version = true := by decide
  exact ⟨h, ha, (c5_refresh_descending cacheWorldStale h ha hc).1,
    (c5_refresh_descending cacheWorldStale h ha hc).2.1,
    (c5_refresh_descending cacheWorldStale h ha hc).2.2.1⟩

/-- Evaluation check: pre-releases are dropped and the rest is returned
newest-first as original tag strings. -/
theorem github_sort_example :
    get_version_history_from_github cacheWorldStale.remote =
      ["0.20.0".data, "0.19.1".data] := by decide

/-- Evaluation check of the excluded boundary: the tags `3` and `rc` parse
to an `int` and a `str` component, whose comparison raises `TypeError` in
Python — `verComparable` detects exactly this pair, so such remotes fall
outside the sort theorem's hypotheses. -/
theorem mixed_components_incomparable_example :
    verComparable (looseTokenize "3".data) (looseTokenize "rc".data) =
      false := by decide

/-- Python whitespace characters removed by `str.strip()` (ASCII subset). -/
def isPySpace (c : Char) : Bool :=
  c = ' ' || c = '\t' || c = '\n' || c = '\r' || c = '\x0b' || c = '\x0c'

/-- Embedding of Python `str.strip()`: remove leading and trailing
whitespace. -/
def pyStrip (s : Str) : Str :=
  ((s.dropWhile isPySpace).reverse.dropWhile isPySpace).reverse

/-- Absolute filesystem paths as component lists; `os.path.dirname` drops the
last component and is the identity on the filesystem root `[]`. -/
abbrev PathC := List Str

/-- Environment and filesystem as seen by the Version Selector: the value of
`os.environ['USE_BAZEL_VERSION']` when the variable is set (possibly to the
empty string), `os.path.exists`, file reading, and `os.getcwd()`. -/
structure SelectorWorld where
  useBazelVersion : Option Str
  path_exists : PathC → Bool
  read_file : PathC → Str
  cwd : PathC

/-- Embedding of `find_workspace_root(root)` (bazelisk.py lines 65-71): if
`<root>/WORKSPACE` exists return `root`, otherwise recurse on
`os.path.dirname(root)`, stopping with `None` when the dirname no longer
changes (at the filesystem root).  The `fuel` argument only bounds the
recursion for Lean's termination checker; each recursive step removes one
path component, so `root.length + 1` always suffices. -/
def findWorkspaceRootAux (w : SelectorWorld) : Nat → PathC → Option PathC
  | 0, _ => none
  | fuel + 1, root =>
    if w.path_exists (root ++ ["WORKSPACE".data]) = true then some root
    else if root = [] then none
    else findWorkspaceRootAux w fuel root.dropLast

/-- Embedding of `find_workspace_root()` called with its default argument
`os.getcwd()`. -/
def find_workspace_root (w : SelectorWorld) : Option PathC :=
  findWorkspaceRootAux w (w.cwd.length + 1) w.cwd

/-- Embedding of `decide_which_bazel_version_to_use()` (bazelisk.py lines
41-62): the override variable wins whenever it is set (note: even when set
to the empty string — `'USE_BAZEL_VERSION' in os.environ` does not inspect
the value); otherwise the `.bazelversion` file at the discovered workspace
root, stripped; otherwise the literal `latest`. -/
def decide_which_bazel_version_to_use (w : SelectorWorld) : Str :=
  match w.useBazelVersion with
  | some v => v
  | none =>
    match find_workspace_root w with
    | some workspace_root =>
      if w.path_exists (workspace_root ++ [".bazelversion".data]) = true then
        pyStrip (w.read_file (workspace_root ++ [".bazelversion".data]))
      else "latest".data
    | none => "latest".data

/-- Fallback part (project root, then `latest`) of the Version Selector as
claim C6 describes it; shared by `claimed_version_selector`. -/
def claimed_selector_fallback (w : SelectorWorld) : Str :=
  match find_workspace_root w with
  | some workspace_root =>
    if w.path_exists (workspace_root ++ [".bazelversion".data]) = true then
      pyStrip (w.read_file (workspace_root ++ [".bazelversion".data]))
    else "latest".data
  | none => "latest".data

/-- The Version Selector exactly as claim C6 states it: the override value is
used only when it is set AND non-empty.  This definition follows the claim's
words, not the source, and exists only to be compared against
`decide_which_bazel_version_to_use`. -/
def claimed_version_selector (w : SelectorWorld) : Str :=
  match w.useBazelVersion with
  | some v => if v ≠ [] then v else claimed_selector_fallback w
  | none => claimed_selector_fallback w

theorem findWorkspaceRootAux_sound (w : SelectorWorld) :
    ∀ fuel root r, findWorkspaceRootAux w fuel root = some r →
      r <+: root ∧ w.path_exists (r ++ ["WORKSPACE".data]) = true
  | 0, root, r, h => by simp [findWorkspaceRootAux] at h
  | fuel + 1, root, r, h => by
    unfold findWorkspaceRootAux at h
    by_cases h1 : w.path_exists (root ++ ["WORKSPACE".data]) = true
    · rw [if_pos h1] at h
      injection h with h2
      subst h2
      exact ⟨List.prefix_rfl, h1⟩
    · rw [if_neg h1] at h
      by_cases h2 : root = []
      · rw [if_pos h2] at h
        simp at h
      · rw [if_neg h2] at h
        rcases findWorkspaceRootAux_sound w fuel root.dropLast r h with ⟨hp, he⟩
        exact ⟨hp.trans ⟨[root.getLast h2], List.dropLast_append_getLast h2⟩, he⟩

/-- Filesystem of the C6 worlds: a directory `proj` holding `WORKSPACE` and a
`.bazelversion` file containing two leading spaces, `4.5.6` and a newline. -/
def projFsExists (p : PathC) : Bool :=
  p = ["proj".data, "WORKSPACE".data] || p = ["proj".data, ".bazelversion".data]

def projFsRead (p : PathC) : Str :=
  if p = ["proj".data, ".bazelversion".data] then "  4.5.6\n".data else []

/-- World with the override variable set to the empty string and a project
root pinning version 4.5.6. -/
def selWorldEmptyOverride : SelectorWorld :=
  ⟨some [], projFsExists, projFsRead, ["proj".data]⟩

/-- World with the override variable unset, same filesystem. -/
def selWorldNoOverride : SelectorWorld :=
  ⟨none, projFsExists, projFsRead, ["proj".data]⟩

/-- Counterexample to C6 as stated: with `USE_BAZEL_VERSION` set to the empty
string and a discovered project root pinning `4.5.6`, the code returns the
empty override verbatim (the membership test `'USE_BAZEL_VERSION' in
os.environ` ignores the value), while the claim's selector — which skips an
override that is set but empty — returns `4.5.6`. -/
theorem c6_counterexample :
    decide_which_bazel_version_to_use selWorldEmptyOverride = []
    ∧ claimed_version_selector selWorldEmptyOverride = "4.5.6".data
    ∧ decide_which_bazel_version_to_use selWorldEmptyOverride ≠
        claimed_version_selector selWorldEmptyOverride := by decide

/-- C6 (amended): the Version Selector checks sources in strict priority
order, the override being used verbatim whenever the variable is set — even
when set to the empty string: (1) if `USE_BAZEL_VERSION` is set, its value is
returned verbatim without consulting any project root or pinned-version
file; (2) otherwise, if walking upward from the current directory finds a
directory containing the `WORKSPACE` marker and that directory holds a
`.bazelversion` file, its contents are returned whitespace-trimmed; (3)
otherwise the literal `latest` is returned, and the absence of a project
root is not an error.  Any discovered root is an ancestor-or-self of the
current directory that contains the marker. -/
theorem c6_amended_selector_priority (w : SelectorWorld) :
    (∀ v, w.useBazelVersion = some v →
      decide_which_bazel_version_to_use w = v)
    ∧ (w.useBazelVersion = none → ∀ r, find_workspace_root w = some r →
      w.path_exists (r ++ [".bazelversion".data]) = true →
      decide_which_bazel_version_to_use w =
        pyStrip (w.read_file (r ++ [".bazelversion".data])))
    ∧ (w.useBazelVersion = none → ∀ r, find_workspace_root w = some r →
      w.path_exists (r ++ [".bazelversion".data]) = false →
      decide_which_bazel_version_to_use w = "latest".data)
    ∧ (w.useBazelVersion = none → find_workspace_root w = none →
      decide_which_bazel_version_to_use w = "latest".data)
    ∧ (∀ r, find_workspace_root w = some r →
      r <+: w.cwd ∧ w.path_exists (r ++ ["WORKSPACE".data]) = true) := by
  refine ⟨?_, ?_, ?_, ?_, ?_⟩
  · intro v hv
    unfold decide_which_bazel_version_to_use
    simp only [hv]
  · intro hn r hr hb
    unfold decide_which_bazel_version_to_use
    simp only [hn, hr]
    rw [if_pos hb]
  · intro hn r hr hb
    unfold decide_which_bazel_version_to_use
    simp only [hn, hr]
    rw [if_neg (by simp [hb])]
  · intro hn hr
    unfold decide_which_bazel_version_to_use
    simp only [hn, hr]
  · intro r hr
    exact findWorkspaceRootAux_sound w _ _ r hr

/-- Witness for C6 (amended) at the specification's example scenario: no
override, root `proj` discovered via its `WORKSPACE` marker, `.bazelversion`
containing two spaces, `4.5.6` and a newline, yields the trimmed `4.5.6`;
with the override set to `1.2.3` the override wins. -/
theorem c6_witness :
    (selWorldNoOverride.useBazelVersion = none
      ∧ find_workspace_root selWorldNoOverride = some [ "proj".data]
      ∧ selWorldNoOverride.path_exists
          (["proj".data] ++ [".bazelversion".data]) = true
      ∧ decide_which_bazel_version_to_use selWorldNoOverride = "4.5.6".data)
    ∧ decide_which_bazel_version_to_use
        ⟨some "1.2.3".data, projFsExists, projFsRead, ["proj".data]⟩ =
        "1.2.3".data := by
  refine ⟨⟨rfl, by decide, by decide, ?_⟩, ?_⟩
  · have h := (c6_amended_selector_priority selWorldNoOverride).2.1 rfl
      ["proj".data] (by decide) (by decide)
    rw [h]
    decide
  · exact (c6_amended_selector_priority _).1 "1.2.3".data rfl

/-- Embedding of the optional `(rc\d)?` group matched at a given position:
it captures exactly when the text starts with `rc` followed by a digit. -/
def rcMatch : Str → Option Str
  | a :: b :: c :: _ =>
    if a = 'r' ∧ b = 'c' ∧ c.isDigit = true then some [a, b, c] else none
  | _ => none

/-- Helper embedding one literal `\.` of the regex: strip a leading dot. -/
def dotSplit : Str → Option Str
  | c :: rest => if c = '.' then some rest else none
  | [] => none

/-- Embedding of `re.match(r'(\d*\.\d*(?:\.\d*)?)(rc\d)?', version)` from
`determine_url` (bazelisk.py line 151), returning the two captured groups
when the match succeeds.  The numeric components are `\d*` — possibly empty —
runs; the quantifiers are greedy, and since a maximal digit run is never
followed by another digit, and neither `.` nor `r` is a digit, the greedy
scan needs no backtracking.  `re.match` only anchors at the start: trailing
unmatched text is ignored.  The match fails — making the script die with an
`AttributeError` on `.groups()` — exactly when the maximal leading digit run
is not followed by a dot. -/
def splitVersion (version : Str) : Option (Str × Option Str) :=
  match dotSplit (version.dropWhile Char.isDigit) with
  | none => none
  | some r2 =>
    match dotSplit (r2.dropWhile Char.isDigit) with
    | none =>
      some (version.takeWhile Char.isDigit ++ '.' :: r2.takeWhile Char.isDigit,
        rcMatch (r2.dropWhile Char.isDigit))
    | some r4 =>
      some (version.takeWhile Char.isDigit ++ '.' :: r2.takeWhile Char.isDigit
          ++ '.' :: r4.takeWhile Char.isDigit,
        rcMatch (r4.dropWhile Char.isDigit))

/-- Embedding of `determine_url(version, bazel_filename)` (bazelisk.py lines
148-153).  The release segment is the rc group when it was captured
(`rc if rc else "release"`; a captured group is always the non-empty `rc<d>`)
and the literal `release` otherwise. -/
def determine_url (version bazel_filename : Str) : Except PyError Str :=
  match splitVersion version with
  | none => .error .attributeError
  | some (base, rc) =>
    .ok ("https://releases.bazel.build/".data ++ base ++ "/".data ++
      rc.getD "release".data ++ "/".data ++ bazel_filename)

/-- A string all of whose characters are ASCII digits. -/
def digitsOnly (s : Str) : Prop := ∀ c ∈ s, c.isDigit = true

/-- Shape of the claim's base pattern `\d+\.\d+(\.\d+)?` — two or three
NON-EMPTY digit runs joined by dots.  Follows the claim's words; used only to
compare against what the code captures. -/
def specBaseStrict (s : Str) : Bool :=
  match s.splitOn '.' with
  | [a, b] => decide (a ≠ []) && a.all Char.isDigit &&
      decide (b ≠ []) && b.all Char.isDigit
  | [a, b, c] => decide (a ≠ []) && a.all Char.isDigit &&
      decide (b ≠ []) && b.all Char.isDigit &&
      decide (c ≠ []) && c.all Char.isDigit
  | _ => false

/-- Shape of the base group the code actually captures:
`\d*\.\d*(\.\d*)?` — two or three POSSIBLY-EMPTY digit runs joined by
dots. -/
def looseBaseShape (s : Str) : Prop :=
  (∃ a b, digitsOnly a ∧ digitsOnly b ∧ s = a ++ '.' :: b)
  ∨ (∃ a b c, digitsOnly a ∧ digitsOnly b ∧ digitsOnly c ∧
      s = a ++ '.' :: b ++ '.' :: c)

theorem dotSplit_some : ∀ s r, dotSplit s = some r → s = '.' :: r
  | c :: rest, r, h => by
    simp only [dotSplit] at h
    by_cases hc : c = '.'
    · rw [if_pos hc] at h
      injection h with h
      subst h
      rw [hc]
    · rw [if_neg hc] at h
      simp at h
  | [], r, h => by simp [dotSplit] at h

theorem rcMatch_some : ∀ s r, rcMatch s = some r →
    ∃ d rest, d.isDigit = true ∧ s = 'r' :: 'c' :: d :: rest ∧ r = ['r', 'c', d]
  | a :: b :: c :: rest, r, h => by
    simp only [rcMatch] at h
    by_cases hc : a = 'r' ∧ b = 'c' ∧ c.isDigit = true
    · rw [if_pos hc] at h
      injection h with h
      subst h
      obtain ⟨ha, hb, hd⟩ := hc
      subst ha
      subst hb
      exact ⟨c, rest, hd, rfl, rfl⟩
    · rw [if_neg hc] at h
      simp at h
  | [], _, h => by simp [rcMatch] at h
  | [_], _, h => by simp [rcMatch] at h
  | [_, _], _, h => by simp [rcMatch] at h

theorem digitsOnly_takeWhile (s : Str) : digitsOnly (s.takeWhile Char.isDigit) :=
  fun _ hc => List.mem_takeWhile_imp hc

/-- Counterexample to C7 as stated: the literal version `.1` (reachable,
since any label without `latest` passes through resolution unchanged) is
matched by the code's regex with base group `.1`, whose first numeric
component is empty — so the base does not match the claim's pattern
`\d+\.\d+(\.\d+)?` — and the derived URL embeds the path segment `.1`. -/
theorem c7_counterexample :
    splitVersion ".1".data = some (".1".data, none)
    ∧ specBaseStrict ".1".data = false
    ∧ determine_url ".1".data "f".data =
        .ok "https://releases.bazel.build/.1/release/f".data
    ∧ resolve_version_label_to_number [] ".1".data =
        ⟨.ok ".1".data, false⟩ := by decide

/-- C7 (amended): URL derivation greedily splits the version string from the
start into a base part matching `\d*\.\d*(\.\d*)?` — the numeric components
may be empty, and trailing unmatched text is ignored — followed by an
optional release-candidate suffix matching `rc\d`; the URL's release segment
is the rc suffix when present and the literal `release` otherwise, and the
final URL is `https://releases.bazel.build/<base>/<segment>/<filename>`.  In
particular version `0.20.0` yields segment `release`, and `0.20.0rc1` yields
base `0.20.0` and segment `rc1`. -/
theorem c7_amended_url_derivation (version bazel_filename : Str) :
    (∀ base rc, splitVersion version = some (base, rc) →
      looseBaseShape base
      ∧ (∀ r, rc = some r → ∃ d, d.isDigit = true ∧ r = ['r', 'c', d])
      ∧ (base ++ rc.getD []) <+: version
      ∧ determine_url version bazel_filename =
          .ok ("https://releases.bazel.build/".data ++ base ++ "/".data ++
            rc.getD "release".data ++ "/".data ++ bazel_filename))
    ∧ determine_url "0.20.0".data bazel_filename =
        .ok ("https://releases.bazel.build/0.20.0/release/".data ++
          bazel_filename)
    ∧ splitVersion "0.20.0rc1".data = some ("0.20.0".data, some "rc1".data)
    ∧ determine_url "0.20.0rc1".data bazel_filename =
        .ok ("https://releases.bazel.build/0.20.0/rc1/".data ++
          bazel_filename) := by
  refine ⟨?_, rfl, rfl, rfl⟩
  intro base rc h
  have hurl : determine_url version bazel_filename =
      .ok ("https://releases.bazel.build/".data ++ base ++ "/".data ++
        rc.getD "release".data ++ "/".data ++ bazel_filename) := by
    unfold determine_url
    simp only [h]
  have h' := h
  unfold splitVersion at h'
  cases hds1 : dotSplit (version.dropWhile Char.isDigit) with
  | none =>
    simp only [hds1] at h'
    simp at h'
  | some r2 =>
    simp only [hds1] at h'
    have hv1 : version = version.takeWhile Char.isDigit ++ '.' :: r2 := by
      rw [← dotSplit_some _ _ hds1, List.takeWhile_append_dropWhile]
    cases hds2 : dotSplit (r2.dropWhile Char.isDigit) with
    | none =>
      simp only [hds2] at h'
      simp only [Option.some.injEq, Prod.mk.injEq] at h'
      obtain ⟨hbase, hrc⟩ := h'
      subst hbase
      subst hrc
      have hv2 : r2 = r2.takeWhile Char.isDigit ++ r2.dropWhile Char.isDigit :=
        (List.takeWhile_append_dropWhile _ _).symm
      refine ⟨Or.inl ⟨_, _, digitsOnly_takeWhile _, digitsOnly_takeWhile _, rfl⟩,
        ?_, ?_, hurl⟩
      · intro r hr
        rcases rcMatch_some _ _ hr with ⟨d, rest, hd, _, hrd⟩
        exact ⟨d, hd, hrd⟩
      · cases hrc2 : rcMatch (r2.dropWhile Char.isDigit) with
        | none =>
          refine ⟨r2.dropWhile Char.isDigit, ?_⟩
          conv_rhs => rw [hv1, hv2]
          simp
        | some r =>
          rcases rcMatch_some _ _ hrc2 with ⟨d, rest, _, hsplit, hrd⟩
          refine ⟨rest, ?_⟩
          rw [hrd]
          conv_rhs => rw [hv1, hv2, hsplit]
          simp
    | some r4 =>
      simp only [hds2] at h'
      simp only [Option.some.injEq, Prod.mk.injEq] at h'
      obtain ⟨hbase, hrc⟩ := h'
      subst hbase
      subst hrc
      have hv2 : r2 = r2.takeWhile Char.isDigit ++ '.' :: r4 := by
        rw [← dotSplit_some _ _ hds2, List.takeWhile_append_dropWhile]
      have hv3 : r4 = r4.takeWhile Char.isDigit ++ r4.dropWhile Char.isDigit :=
        (List.takeWhile_append_dropWhile _ _).symm
      refine ⟨Or.inr ⟨_, _, _, digitsOnly_takeWhile _, digitsOnly_takeWhile _,
        digitsOnly_takeWhile _, rfl⟩, ?_, ?_, hurl⟩
      · intro r hr
        rcases rcMatch_some _ _ hr with ⟨d, rest, hd, _, hrd⟩
        exact ⟨d, hd, hrd⟩
      · cases hrc2 : rcMatch (r4.dropWhile Char.isDigit) with
        | none =>
          refine ⟨r4.dropWhile Char.isDigit, ?_⟩
          conv_rhs => rw [hv1, hv2, hv3]
          simp
        | some r =>
          rcases rcMatch_some _ _ hrc2 with ⟨d, rest, _, hsplit, hrd⟩
          refine ⟨rest, ?_⟩
          rw [hrd]
          conv_rhs => rw [hv1, hv2, hv3, hsplit]
          simp

/-- Witness for C7 (amended) at the version `0.20.0rc1`. -/
theorem c7_witness :
    splitVersion "0.20.0rc1".data = some ("0.20.0".data, some "rc1".data)
    ∧ looseBaseShape "0.20.0".data
    ∧ ("0.20.0".data ++ (some "rc1".data).getD []) <+: "0.20.0rc1".data
    ∧ determine_url "0.20.0rc1".data "bazel-x".data =
        .ok ("https://releases.bazel.build/".data ++ "0.20.0".data ++
          "/".data ++ (some "rc1".data).getD "release".data ++ "/".data ++
          "bazel-x".data) := by
  have h : splitVersion "0.20.0rc1".data =
      some ("0.20.0".data, some "rc1".data) := by decide
  have hc := (c7_amended_url_derivation "0.20.0rc1".data "bazel-x".data).1 _ _ h
  exact ⟨h, hc.1, hc.2.2.1, hc.2.2.2⟩

/-- Embedding of `normalized_machine_arch_name()` (bazelisk.py lines
141-145), with the `platform.machine()` value passed in explicitly:
lowercase it, then map `amd64` to `x86_64`. -/
def normalized_machine_arch_name (platform_machine : Str) : Str :=
  if platform_machine.map Char.toLower = "amd64".data then "x86_64".data
  else platform_machine.map Char.toLower

/-- Embedding of `determine_bazel_filename(version)` (bazelisk.py lines
123-138), with the `platform.machine()` and `platform.system()` values
passed in explicitly. -/
def determine_bazel_filename (version platform_machine platform_system : Str) :
    Except PyError Str :=
  if normalized_machine_arch_name platform_machine ≠ "x86_64".data then
    .error (.unsupportedArchitecture
      (normalized_machine_arch_name platform_machine))
  else if platform_system.map Char.toLower ∉
      (["linux".data, "darwin".data, "windows".data] : List Str) then
    .error (.unsupportedOperatingSystem (platform_system.map Char.toLower))
  else
    .ok ("bazel-".data ++ version ++ "-".data ++
      platform_system.map Char.toLower ++ "-".data ++
      normalized_machine_arch_name platform_machine ++
      (if platform_system.map Char.toLower = "windows".data
        then ".exe".data else []))

/-- C8: filename computation normalizes the reported architecture (mapping
`amd64` to `x86_64`) and fails with `UnsupportedArchitecture` when the
normalized value is not `x86_64`; fails with `UnsupportedOperatingSystem`
when the lowercased OS name is not one of linux, darwin, windows; and
otherwise returns exactly `bazel-<version>-<os>-<arch>`, with `.exe`
appended exactly when the OS is windows. -/
theorem c8_filename_derivation (version platform_machine platform_system : Str) :
    (platform_machine.map Char.toLower = "amd64".data →
      normalized_machine_arch_name platform_machine = "x86_64".data)
    ∧ (normalized_machine_arch_name platform_machine ≠ "x86_64".data →
      determine_bazel_filename version platform_machine platform_system =
        .error (.unsupportedArchitecture
          (normalized_machine_arch_name platform_machine)))
    ∧ (normalized_machine_arch_name platform_machine = "x86_64".data →
      platform_system.map Char.toLower ∉
        (["linux".data, "darwin".data, "windows".data] : List Str) →
      determine_bazel_filename version platform_machine platform_system =
        .error (.unsupportedOperatingSystem (platform_system.map Char.toLower)))
    ∧ (normalized_machine_arch_name platform_machine = "x86_64".data →
      platform_system.map Char.toLower ∈
        (["linux".data, "darwin".data, "windows".data] : List Str) →
      determine_bazel_filename version platform_machine platform_system =
        .ok ("bazel-".data ++ version ++ "-".data ++
          platform_system.map Char.toLower ++ "-".data ++ "x86_64".data ++
          (if platform_system.map Char.toLower = "windows".data
            then ".exe".data else []))) := by
  refine ⟨?_, ?_, ?_, ?_⟩
  · intro h
    unfold normalized_machine_arch_name
    rw [if_pos h]
  · intro h
    unfold determine_bazel_filename
    rw [if_pos h]
  · intro h1 h2
    unfold determine_bazel_filename
    rw [if_neg (by simp [h1]), if_pos h2]
  · intro h1 h2
    unfold determine_bazel_filename
    rw [if_neg (by simp [h1]), if_neg (by simp [h2]), h1]

/-- Witness for C8: concrete linux, windows, unsupported-architecture and
unsupported-OS instances. -/
theorem c8_witness :
    determine_bazel_filename "1.0.0".data "x86_64".data "Linux".data =
      .ok "bazel-1.0.0-linux-x86_64".data
    ∧ determine_bazel_filename "1.0.0".data "AMD64".data "Windows".data =
      .ok "bazel-1.0.0-windows-x86_64.exe".data
    ∧ determine_bazel_filename "1.0.0".data "arm64".data "Linux".data =
      .error (.unsupportedArchitecture "arm64".data)
    ∧ determine_bazel_filename "1.0.0".data "amd64".data "SunOS".data =
      .error (.unsupportedOperatingSystem "sunos".data) := by
  refine ⟨?_, ?_, ?_, ?_⟩
  · exact (c8_filename_derivation "1.0.0".data "x86_64".data "Linux".data).2.2.2
      (by decide) (by decide)
  · exact (c8_filename_derivation "1.0.0".data "AMD64".data "Windows".data).2.2.2
      (by decide) (by decide)
  · exact (c8_filename_derivation "1.0.0".data "arm64".data "Linux".data).2.1
      (by decide)
  · exact (c8_filename_derivation "1.0.0".data "amd64".data "SunOS".data).2.2.1
      (by decide) (by decide)

/-- Outcome of one call to `p.wait()` inside `execute_bazel`: a
`KeyboardInterrupt` delivered during the wait, the child's exit (in which
case `wait` returns its exit code), or any other exception. -/
inductive WaitEvent where
  | keyboardInterrupt
  | exited (code : Int)
  | raised (e : Str)
deriving DecidableEq

/-- Embedding of the wait loop of `execute_bazel` (bazelisk.py lines
183-189, `while True: try: return p.wait() except KeyboardInterrupt: pass`),
over the trace of outcomes of successive `p.wait()` calls: interrupts are
swallowed and the wait retried; the first exit returns the child's code; any
other exception propagates.  `none` means the trace ran out with the loop
still waiting. -/
def waitLoop : List WaitEvent → Option (Except Str Int)
  | [] => none
  | .keyboardInterrupt :: rest => waitLoop rest
  | .exited code :: _ => some (.ok code)
  | .raised e :: _ => some (.error e)

/-- Observable behaviour of `execute_bazel(bazel_path, argv)`: the command
line handed to `subprocess.Popen` and the result of the wait loop. -/
structure ExecOutcome where
  command : List Str
  outcome : Option (Except Str Int)
deriving DecidableEq

/-- Embedding of `execute_bazel(bazel_path, argv)` (bazelisk.py lines
180-189): spawn `[bazel_path] + argv` (the `close_fds` flag affects neither
the command line nor the exit code) and run the interrupt-tolerant wait loop
over the given trace. -/
def execute_bazel (bazel_path : Str) (argv : List Str)
    (waits : List WaitEvent) : ExecOutcome :=
  ⟨bazel_path :: argv, waitLoop waits⟩

/-- Python `os.path.join` over component paths. -/
def joinPath (p : PathC) : Str := List.intercalate "/".data p

/-- Complete environment of one run of `main(argv)`: selector inputs, cache
state, platform identification, the `BAZELISK_HOME` directory (already
resolved from the environment or the user's home), and the trace of wait
outcomes for the launched child. -/
structure World where
  sel : SelectorWorld
  cache : CacheWorld
  platform_machine : Str
  platform_system : Str
  bazelisk_home : PathC
  waits : List WaitEvent

/-- Embedding of `main(argv)` (bazelisk.py lines 192-208) up to its return
value: select the version label, resolve it (the history argument is passed
eagerly here, which is harmless because `resolve_version_label_to_number`
ignores it for literal labels), derive the platform filename and then the
URL (`download_bazel_into_directory` computes both, and a failure of either
propagates), place the binary at `<bazelisk_home>/bin/<filename>`, and
execute it with `argv[1:]` forwarded.  `sys.exit(main())` makes the returned
outcome's exit code the process exit code.  Directory creation and the byte
transfer of the download cannot change the returned value and have no
observable effect in this embedding. -/
def main (w : World) (argv : List Str) : Except PyError ExecOutcome :=
  match (resolve_version_label_to_number (get_version_history w.cache).history
      (decide_which_bazel_version_to_use w.sel)).result with
  | .error e => .error e
  | .ok bazel_version =>
    match determine_bazel_filename bazel_version w.platform_machine
        w.platform_system with
    | .error e => .error e
    | .ok bazel_filename =>
      match determine_url bazel_version bazel_filename with
      | .error e => .error e
      | .ok _url =>
        .ok (execute_bazel
          (joinPath (w.bazelisk_home ++ ["bin".data, bazel_filename]))
          (argv.drop 1) w.waits)

theorem waitLoop_replicate_interrupt (n : Nat) (rest : List WaitEvent) :
    waitLoop (List.replicate n .keyboardInterrupt ++ rest) = waitLoop rest := by
  induction n with
  | zero => rfl
  | succ k ih =>
    rw [List.replicate_succ, List.cons_append]
    exact ih

/-- C9: the launcher starts the binary with every argument after the tool's
own invocation name forwarded unmodified (the spawned command is the binary
path followed by `argv[1:]`), the outcome returned by `main` — and used via
`sys.exit` as the parent's exit code — is exactly the wait loop's result;
in that loop an interrupt never terminates the wait (any number of leading
interrupts leaves the result unchanged and the wait is retried until the
child exits), the child's exit code is returned when it exits, and every
other exception propagates. -/
theorem c9_forwarding_and_interrupt_tolerance :
    (∀ w argv res, main w argv = .ok res →
      (∃ p, res.command = p :: argv.drop 1) ∧ res.outcome = waitLoop w.waits)
    ∧ (∀ n rest, waitLoop (List.replicate n .keyboardInterrupt ++ rest) =
        waitLoop rest)
    ∧ (∀ code rest, waitLoop (.exited code :: rest) = some (.ok code))
    ∧ (∀ e rest, waitLoop (.raised e :: rest) = some (.error e))
    ∧ (∀ n code rest, waitLoop (List.replicate n .keyboardInterrupt ++
        .exited code :: rest) = some (.ok code)) := by
  refine ⟨?_, waitLoop_replicate_interrupt, fun _ _ => rfl, fun _ _ => rfl,
    ?_⟩
  · intro w argv res h
    unfold main at h
    split at h
    · exact Except.noConfusion h
    · split at h
      · exact Except.noConfusion h
      · split at h
        · exact Except.noConfusion h
        · injection h with h
          subst h
          exact ⟨⟨_, rfl⟩, rfl⟩
  · intro n code rest
    rw [waitLoop_replicate_interrupt]
    rfl

/-- Cache world that is fresh at read time with integral clock values. -/
def worldOkCache : CacheWorld := ⟨true, 1000, ["1.0".data], 1000, []⟩

/-- World pinning version `0.20.0` on a supported platform, whose child
receives two interrupts and then exits with code 7. -/
def worldOk : World :=
  ⟨⟨some "0.20.0".data, projFsExists, projFsRead, ["proj".data]⟩,
    worldOkCache, "x86_64".data, "Linux".data,
    ["home".data, ".bazelisk".data],
    [.keyboardInterrupt, .keyboardInterrupt, .exited 7]⟩

/-- Witness for C9 at `worldOk`: the spawned command is the downloaded
binary's path followed by the forwarded `argv[1:]`, the two interrupts are
swallowed, and the child's exit code 7 is the returned outcome. -/
theorem c9_witness :
    main worldOk ["bazelisk".data, "build".data, "//src:all".data] =
      .ok (execute_bazel
        "home/.bazelisk/bin/bazel-0.20.0-linux-x86_64".data
        ["build".data, "//src:all".data] worldOk.waits)
    ∧ (∃ p, (execute_bazel
        "home/.bazelisk/bin/bazel-0.20.0-linux-x86_64".data
        ["build".data, "//src:all".data] worldOk.waits).command =
        p :: ["build".data, "//src:all".data])
    ∧ (execute_bazel "home/.bazelisk/bin/bazel-0.20.0-linux-x86_64".data
        ["build".data, "//src:all".data] worldOk.waits).outcome =
        some (.ok 7) := by
  have h : main worldOk ["bazelisk".data, "build".data, "//src:all".data] =
      .ok (execute_bazel
        "home/.bazelisk/bin/bazel-0.20.0-linux-x86_64".data
        ["build".data, "//src:all".data] worldOk.waits) := by decide
  rcases (c9_forwarding_and_interrupt_tolerance).1 _ _ _ h with ⟨⟨p, hp⟩, ho⟩
  refine ⟨h, ⟨p, hp⟩, ?_⟩
  rw [ho]
  decide

/-- World where the override pins the malformed literal `abc` on a supported
platform. -/
def worldAbc : World :=
  ⟨⟨some "abc".data, projFsExists, projFsRead, ["proj".data]⟩,
    worldOkCache, "x86_64".data, "Linux".data,
    ["home".data, ".bazelisk".data], [.exited 0]⟩

/-- C10: for the literal label `abc` (which does not contain `latest`),
resolution returns the label unchanged with no validation and no history
fetch; URL derivation then fails because the version has no leading
`\d*\.\d*`, so `re.match` returns `None` and calling `.groups()` on it
raises an unstructured `AttributeError`; none of the four named error kinds
is produced, and the whole run aborts with that unstructured error. -/
theorem c10_unvalidated_literal_url_failure :
    (∀ history, resolve_version_label_to_number history "abc".data =
      ⟨.ok "abc".data, false⟩)
    ∧ splitVersion "abc".data = none
    ∧ (∀ bazel_filename, determine_url "abc".data bazel_filename =
      .error .attributeError)
    ∧ isNamedError .attributeError = false
    ∧ main worldAbc ["bazelisk".data] = .error .attributeError := by
  refine ⟨?_, by decide, fun _ => rfl, rfl, by decide⟩
  intro history
  unfold resolve_version_label_to_number
  rw [if_neg (by decide)]

end Bazelisk
